import Mathlib

/-!
Verification of the Inbox-Scout Adaptive Voice Memory Engine.

This file gives a shallow embedding, in Lean 4, of the parts of the
TypeScript sources that the specification talks about:

* `MemoryClient` (Pinecone/OpenAI memory client): `generateEmbedding`,
  `storeConversation`, `storeVoicePattern`, `learnFromEdit`,
  `extractEditPatterns`, `ingestLinkedInContent`, `getConversationHistory`,
  `searchRelevantContext`, `getVoicePatterns`, `buildContextForDraft`,
  `getVoiceGuidance`;
* `SentMonitorService`: `analyzeStyleChanges`, `extractGreeting`,
  `extractClosing`;
* `LinkedInIngester`: `buildVoiceProfile` and its analysis passes;
* `InboxScoutAgent`: the bounded `aiFilterCache` update performed by
  `shouldAmyReplyToEmail`.

External effects (the OpenAI embeddings endpoint, Pinecone queries) are
modelled as explicit oracles passed to the functions; pure computations are
translated statement by statement.  JavaScript string operations are modelled
exactly: `split(' ')` keeps empty segments, `split(/\s+/)` splits on maximal
whitespace runs, `substring(0, n)` is `String.take n`, and `Map` iteration
order is insertion order.
-/

/-! ## JavaScript string helpers -/

/-- The suffix after `dropWhile` is no longer than the original list. -/
theorem length_dropWhile_le_self (p : Char → Bool) (l : List Char) :
    (l.dropWhile p).length ≤ l.length := by
  induction l with
  | nil => simp [List.dropWhile]
  | cons c cs ih =>
    by_cases h : p c
    · simp only [List.dropWhile, h, List.length_cons]
      exact Nat.le_succ_of_le ih
    · simp [List.dropWhile, h]

/-- Model of JavaScript `String.prototype.split` with a character-class
regular expression such as `/\\s+/`: the string is cut at every maximal run
of characters satisfying `p`, keeping the (possibly empty) segments before
the first run, between runs, and after the last run.  `acc` is the current
segment (reversed); `inRun` records that the previous character belonged to
a separator run. -/
def splitRunsGo (p : Char → Bool) : List Char → List Char → Bool → List String
  | [], acc, inRun => if inRun then [""] else [String.mk acc.reverse]
  | c :: cs, acc, inRun =>
    if p c then
      if inRun then splitRunsGo p cs [] true
      else String.mk acc.reverse :: splitRunsGo p cs [] true
    else splitRunsGo p cs (c :: acc) false

/-- `splitRuns p s` is `s.split(/[p]+/)` in JavaScript. -/
def splitRuns (p : Char → Bool) (s : String) : List String :=
  splitRunsGo p s.toList [] false

/-- JavaScript `text.split(/\\s+/)`. -/
def splitWhitespace (s : String) : List String :=
  splitRuns Char.isWhitespace s

/-- JavaScript `String.prototype.split` with a single-character separator
(such as `split(' ')` or `split('\\n')`): cuts at every separator
occurrence, keeping empty segments. -/
def splitChar (sep : Char) : List Char → List (List Char)
  | [] => [[]]
  | c :: cs =>
    if c == sep then [] :: splitChar sep cs
    else
      match splitChar sep cs with
      | [] => [[c]]
      | s :: rest => (c :: s) :: rest

/-- `splitChar` on strings. -/
def jsSplitChar (sep : Char) (s : String) : List String :=
  (splitChar sep s.toList).map String.mk

/-- Number of elements of JavaScript `text.split(' ')`. -/
def wordCountJs (s : String) : Nat :=
  (splitChar ' ' s.toList).length

/-- JavaScript `String.prototype.toLowerCase` (character-wise). -/
def jsToLower (s : String) : String :=
  String.mk (s.toList.map Char.toLower)

/-- `startsWithList pre l` : `pre` is an initial segment of `l`. -/
def startsWithList : List Char → List Char → Bool
  | [], _ => true
  | _ :: _, [] => false
  | a :: pre, c :: cs => (a == c) && startsWithList pre cs

/-- JavaScript `s.startsWith(pre)`. -/
def jsStarts (s pre : String) : Bool :=
  startsWithList pre.toList s.toList

/-- `needle` occurs as a contiguous sublist of `hay`. -/
def containsList (hay needle : List Char) : Bool :=
  match hay with
  | [] => needle.isEmpty
  | _ :: t => startsWithList needle hay || containsList t needle

/-- JavaScript `hay.includes(needle)`. -/
def containsSub (hay needle : String) : Bool :=
  containsList hay.toList needle.toList

/-- JavaScript `String.prototype.trim`: strip whitespace from both ends. -/
def jsTrim (s : String) : String :=
  String.mk (((s.toList.dropWhile Char.isWhitespace).reverse.dropWhile Char.isWhitespace).reverse)

/-- JavaScript `s.substring(0, n)`: the first `n` units of `s`. -/
def jsTruncate (s : String) (n : Nat) : String :=
  String.mk (s.toList.take n)


/-! ## Embedding Provider Adapter (`MemoryClient.generateEmbedding`)

The source is a `while (retryCount < maxRetries)` loop around
`openai.embeddings.create`.  A quota/rate error (`insufficient_quota` or
HTTP 429) waits `2 ^ retryCount * 60 * 1000` ms and retries; any other error
waits `(retryCount + 1) * 1000` ms and retries; the last attempt rethrows.
The provider is modelled as an oracle giving the outcome of calling the
embeddings endpoint with a given input text on a given `retryCount`. -/

/-- Outcome of one call to the embeddings endpoint. -/
inductive AttemptOutcome where
  | success (v : List Int)
  | quotaError
  | otherError
deriving DecidableEq, Repr

/-- Result of `generateEmbedding`: the returned vector, or the error thrown.
`errExhausted` is the dead `throw new Error(\x27Failed to generate embedding
after retries\x27)` after the loop. -/
inductive EmbedOutcome where
  | ok (v : List Int)
  | errQuota
  | errOther
  | errExhausted
deriving DecidableEq, Repr

/-- What a run of `generateEmbedding` did: its result, the backoff waits (in
milliseconds, in order) and how many provider calls were made. -/
structure EmbedTrace where
  result : EmbedOutcome
  waits : List Nat
  attempts : Nat
deriving DecidableEq, Repr

/-- `maxRetries = 3` in the source. -/
def maxRetries : Nat := 3

/-- The retry loop of `generateEmbedding`.  `fuel = maxRetries - retryCount`
counts the remaining loop iterations, so `fuel = 0` is the loop exit. -/
def generateEmbeddingGo (provider : String → Nat → AttemptOutcome) (text : String) :
    Nat → Nat → EmbedTrace
  | 0, _ => ⟨.errExhausted, [], 0⟩
  | fuel + 1, retryCount =>
    match provider text retryCount with
    | .success v => ⟨.ok v, [], 1⟩
    | .quotaError =>
      if retryCount < maxRetries - 1 then
        let t := generateEmbeddingGo provider text fuel (retryCount + 1)
        ⟨t.result, 2 ^ retryCount * 60 * 1000 :: t.waits, t.attempts + 1⟩
      else
        ⟨.errQuota, [], 1⟩
    | .otherError =>
      if retryCount < maxRetries - 1 then
        let t := generateEmbeddingGo provider text fuel (retryCount + 1)
        ⟨t.result, (retryCount + 1) * 1000 :: t.waits, t.attempts + 1⟩
      else
        ⟨.errOther, [], 1⟩

/-- `MemoryClient.generateEmbedding`.  The loop starts with `retryCount = 0`
and runs while `retryCount < maxRetries`.  There is no special case for empty
input text: the provider is called with whatever `text` is. -/
def generateEmbedding (provider : String → Nat → AttemptOutcome) (text : String) : EmbedTrace :=
  generateEmbeddingGo provider text maxRetries 0

/-! ## Stored record shapes (`storeConversation`, `storeVoicePattern`)

The two store operations are modelled by the record each one upserts:
`embedInput` is the text passed to `generateEmbedding` (the upserted vector
is its embedding), the remaining fields are the stored metadata. -/

/-- `ConversationContext` from the source (`from` is `fromAddr` here because
`from` is a Lean keyword). -/
structure ConversationContext where
  emailId : String
  subject : String
  fromAddr : String
  body : String
  timestamp : String
  summary : Option String
deriving DecidableEq, Repr

/-- The record upserted into the `conversations` namespace. -/
structure StoredConversationRecord where
  id : String
  embedInput : String
  subject : String
  fromAddr : String
  timestamp : String
  summary : String
  storedBody : String
deriving DecidableEq, Repr

/-- `MemoryClient.storeConversation`: builds
`searchText = "Subject: ..\nFrom: ..\n" + body`, embeds `searchText`, and
stores `body.substring(0, 1000)` as the metadata `body`. -/
def storeConversation (ctx : ConversationContext) : StoredConversationRecord :=
  let searchText := "Subject: " ++ ctx.subject ++ "\nFrom: " ++ ctx.fromAddr ++ "\n" ++ ctx.body
  { id := ctx.emailId
    embedInput := searchText
    subject := ctx.subject
    fromAddr := ctx.fromAddr
    timestamp := ctx.timestamp
    summary := ctx.summary.getD ""
    storedBody := jsTruncate ctx.body 1000 }

/-- The `VoicePattern` argument of `storeVoicePattern`.  In the TypeScript
source `source` is the string union `'linkedin' | 'email' | 'edit'`; it is a
plain string here. -/
structure VoicePatternInput where
  pattern : String
  frequency : Nat
  context : String
  source : String
deriving DecidableEq, Repr

/-- The record upserted into the `voice` namespace (the `Date.now()`-based id
is not modelled). -/
structure StoredVoiceRecord where
  embedInput : String
  pattern : String
  frequency : Nat
  context : String
  source : String
deriving DecidableEq, Repr

/-- `MemoryClient.storeVoicePattern`: embeds `pattern.pattern` and stores the
same `pattern.pattern`, untruncated, as the metadata `pattern`. -/
def storeVoicePattern (p : VoicePatternInput) : StoredVoiceRecord :=
  { embedInput := p.pattern
    pattern := p.pattern
    frequency := p.frequency
    context := p.context
    source := p.source }

/-! ## Edit Learning Engine (`learnFromEdit`, `extractEditPatterns`) -/

/-- The words of `sent` (lower-cased, split on `/\s+/`) that do not occur
among the words of `draft`. -/
def addedWords (draft sent : String) : List String :=
  let draftWords := splitWhitespace (jsToLower draft)
  let sentWords := splitWhitespace (jsToLower sent)
  sentWords.filter (fun w => !(draftWords.contains w))

/-- The words of `draft` that do not occur among the words of `sent`. -/
def removedWords (draft sent : String) : List String :=
  let draftWords := splitWhitespace (jsToLower draft)
  let sentWords := splitWhitespace (jsToLower sent)
  draftWords.filter (fun w => !(sentWords.contains w))

/-- `MemoryClient.extractEditPatterns`: pushes one `"Added: .."` string when
some words were added and one `"Removed: .."` string when some words were
removed, each carrying the first 10 such words. -/
def extractEditPatterns (draft sent : String) : List String :=
  let added := addedWords draft sent
  let removed := removedWords draft sent
  (if added.length > 0 then
    ["Added: " ++ String.intercalate " " (added.take 10)]
  else []) ++
  (if removed.length > 0 then
    ["Removed: " ++ String.intercalate " " (removed.take 10)]
  else [])

/-- `MemoryClient.learnFromEdit`: stores one voice pattern per entry of
`extractEditPatterns`, each with `frequency = 1`, the given `context`, and
`source = 'edit'`.  The returned list is the list of records stored, in
order. -/
def learnFromEdit (draftText sentText context : String) : List StoredVoiceRecord :=
  (extractEditPatterns draftText sentText).map
    (fun p => storeVoicePattern ⟨p, 1, context, "edit"⟩)

/-! ## Batch ingestion (`ingestLinkedInContent`)

Each post is stored with `storeVoicePattern`; the outcome of that store
(success, quota error from the embedding call, or any other error) is given
by a per-post oracle list.  On a quota error the loop logs the success count
and the number of remaining skipped posts and rethrows; on any other error it
logs and continues. -/

/-- Outcome of storing one post. -/
inductive PostOutcome where
  | ok
  | quotaError
  | otherError
deriving DecidableEq, Repr

/-- Result of `ingestLinkedInContent`: either the loop completed, or it was
aborted by a quota error; in both cases the success and error counters are
reported, together with how many posts were attempted and (when aborted) how
many were skipped. -/
inductive IngestResult where
  | completed (successCount errorCount attempted : Nat)
  | abortedQuota (successCount errorCount attempted skipped : Nat)
deriving DecidableEq, Repr

/-- The ingestion loop, carrying `successCount`, `errorCount` and the number
of posts attempted so far. -/
def ingestGo : List PostOutcome → Nat → Nat → Nat → IngestResult
  | [], s, e, a => .completed s e a
  | o :: rest, s, e, a =>
    match o with
    | .ok => ingestGo rest (s + 1) e (a + 1)
    | .quotaError => .abortedQuota s (e + 1) (a + 1) rest.length
    | .otherError => ingestGo rest s (e + 1) (a + 1)

/-- `MemoryClient.ingestLinkedInContent`, with one outcome per post. -/
def ingestLinkedInContent (outcomes : List PostOutcome) : IngestResult :=
  ingestGo outcomes 0 0 0

/-! ## Retrieval and context assembly

`getConversationHistory`, `searchRelevantContext`, `getVoicePatterns`,
`buildContextForDraft` and `getVoiceGuidance` each wrap their body in
`try { .. } catch { return [] / '' }`.  The external calls (embedding and the
per-namespace Pinecone queries) are an explicit `MemoryOps` oracle returning
`Except`; the catch clause is the surrounding `match` on that computation. -/

/-- An error thrown by an external call (embedding provider or vector
store). -/
structure MemErr where
  msg : String
deriving DecidableEq, Repr

/-- The metadata fields of a stored record that the retrieval paths read. -/
structure RecordMeta where
  subject : String := ""
  timestamp : String := ""
  body : String := ""
  pattern : String := ""
  source : String := ""
deriving DecidableEq, Repr

/-- One Pinecone match: id, similarity score and metadata. -/
structure QueryMatch where
  id : String
  score : ℚ
  metadata : RecordMeta
deriving DecidableEq, Repr

/-- `SearchResult` from the source: `text` is filled from a metadata
field. -/
structure SearchResult where
  id : String
  score : ℚ
  metadata : RecordMeta
  text : String
deriving DecidableEq, Repr

/-- The external world of `MemoryClient`: the embedding call (already
including its retry loop) and the two namespace queries used by the
retrieval paths.  `queryConversations` takes the query vector, `topK` and the
`from = contact` filter value; `queryVoice` takes the query vector, `topK`
and an optional `source = ..` filter value. -/
structure MemoryOps where
  embed : String → Except MemErr (List Int)
  queryConversations : List Int → Nat → String → Except MemErr (List QueryMatch)
  queryVoice : List Int → Nat → Option String → Except MemErr (List QueryMatch)

/-- `MemoryClient.getConversationHistory`: embed the contact address, query
the `conversations` namespace filtered by `from = contactEmail`, and map the
matches; any failure is caught and degraded to `[]`. -/
def getConversationHistory (ops : MemoryOps) (contactEmail : String) (limit : Nat) :
    List SearchResult :=
  match (do
    let qe ← ops.embed contactEmail
    let ms ← ops.queryConversations qe limit contactEmail
    pure (ms.map (fun m => ⟨m.id, m.score, m.metadata, m.metadata.body⟩)) :
      Except MemErr (List SearchResult)) with
  | .ok r => r
  | .error _ => []

/-- `MemoryClient.searchRelevantContext`: like `getConversationHistory` but
the embedded text is the query string; failures degrade to `[]`. -/
def searchRelevantContext (ops : MemoryOps) (query contactEmail : String) (limit : Nat) :
    List SearchResult :=
  match (do
    let qe ← ops.embed query
    let ms ← ops.queryConversations qe limit contactEmail
    pure (ms.map (fun m => ⟨m.id, m.score, m.metadata, m.metadata.body⟩)) :
      Except MemErr (List SearchResult)) with
  | .ok r => r
  | .error _ => []

/-- `MemoryClient.getVoicePatterns`: embed a fixed query string, query the
`voice` namespace without filter; failures degrade to `[]`. -/
def getVoicePatterns (ops : MemoryOps) (limit : Nat) : List SearchResult :=
  match (do
    let qe ← ops.embed "email communication style tone voice"
    let ms ← ops.queryVoice qe limit none
    pure (ms.map (fun m => ⟨m.id, m.score, m.metadata, m.metadata.pattern⟩)) :
      Except MemErr (List SearchResult)) with
  | .ok r => r
  | .error _ => []

/-- The `## Past Conversations` section built by `buildContextForDraft`. -/
def pastConversationsSection (history : List SearchResult) : String :=
  if history.length > 0 then
    "\n\n## Past Conversations:\n" ++
      String.join ((history.enum).map (fun p =>
        "\n" ++ toString (p.1 + 1) ++ ". " ++ p.2.metadata.subject ++ " (" ++
          p.2.metadata.timestamp ++ "):\n" ++ jsTruncate p.2.text 200 ++ "...\n"))
  else ""

/-- The `## Relevant Context` section built by `buildContextForDraft`; a
result whose id equals the id of the first history entry is skipped. -/
def relevantContextSection (history relevantContext : List SearchResult) : String :=
  if relevantContext.length > 0 then
    "\n\n## Relevant Context:\n" ++
      String.join (relevantContext.map (fun c =>
        if (history.head?.map (fun h => h.id)) ≠ some c.id then
          "\n" ++ jsTruncate c.text 200 ++ "...\n"
        else ""))
  else ""

/-- `MemoryClient.buildContextForDraft`: top-3 conversation history plus
top-2 relevant context, rendered into sections.  The helpers already catch
their own failures, so the body of the surrounding `try` is total and the
`catch (return '')` is unreachable. -/
def buildContextForDraft (ops : MemoryOps) (contactEmail currentEmailBody : String) : String :=
  let history := getConversationHistory ops contactEmail 3
  let relevantContext := searchRelevantContext ops currentEmailBody contactEmail 2
  pastConversationsSection history ++ relevantContextSection history relevantContext

/-- The `### Relevant Writing Style Examples` block of `getVoiceGuidance`:
up to 3 samples longer than 50 characters, truncated to 200 characters. -/
def styleExamplesBlock (relevantLinkedInContent : List SearchResult) : String :=
  if relevantLinkedInContent.length > 0 then
    "\n### Relevant Writing Style Examples:\n" ++
      "These examples match the tone and context of this email:\n\n" ++
      String.join (((relevantLinkedInContent.take 3).enum).map (fun p =>
        if p.2.text.length > 50 then
          toString (p.1 + 1) ++ ". \x22" ++ jsTruncate p.2.text 200 ++
            (if p.2.text.length > 200 then "..." else "") ++ "\x22\n\n"
        else ""))
  else ""

/-- The `### Common Voice Patterns` block of `getVoiceGuidance`: every
pattern with non-empty text, truncated to 150 characters. -/
def voicePatternsBlock (patterns : List SearchResult) : String :=
  if patterns.length > 0 then
    "\n### Common Voice Patterns:\n" ++ "Use these patterns and style elements:\n" ++
      String.join (patterns.map (fun p =>
        if p.text.length > 0 then
          "\n- " ++ (if p.text.length > 150 then jsTruncate p.text 150 ++ "..." else p.text)
        else ""))
  else ""

/-- The fixed `### Writing Style Guidelines` tail of `getVoiceGuidance`. -/
def styleGuidelinesBlock : String :=
  "\n\n### Writing Style Guidelines:\n" ++
    "- Write in a warm, professional tone\n" ++
    "- Be concise but complete\n" ++
    "- Use natural, conversational language\n" ++
    "- Match the tone and style of the examples above\n"

/-- `MemoryClient.getVoiceGuidance`: when a non-empty email context is given,
embed it and query the `voice` namespace filtered by `source = linkedin`;
also fetch the top-10 generic voice patterns; render the guidance.  The
whole body sits in a `try` whose catch returns `''`, so a failing embedding
or LinkedIn query degrades the entire guidance to the empty string. -/
def getVoiceGuidance (ops : MemoryOps) (emailContext : Option String) : String :=
  match (do
    let relevantLinkedInContent ←
      match emailContext with
      | some ec =>
        if ec.length > 0 then do
          let emailEmbedding ← ops.embed ec
          let r ← ops.queryVoice emailEmbedding 5 (some "linkedin")
          pure (r.map (fun m => (⟨m.id, m.score, m.metadata, m.metadata.pattern⟩ : SearchResult)))
        else pure []
      | none => pure ([] : List SearchResult)
    let patterns := getVoicePatterns ops 10
    if patterns.length = 0 && relevantLinkedInContent.length = 0 then
      pure ""
    else
      pure ("\n\n## Amy\x27s Voice Profile:\n" ++
        styleExamplesBlock relevantLinkedInContent ++
        voicePatternsBlock patterns ++
        styleGuidelinesBlock) : Except MemErr String) with
  | .ok s => s
  | .error _ => ""

/-! ## Sent monitor style analysis (`SentMonitorService`)

`analyzeStyleChanges` pushes a length flag, then a greeting flag, then a
closing flag.  Word counts are `split(' ').length`; JavaScript numeric
comparison against `originalWords * 0.8` and `* 1.2` is modelled with exact
rational arithmetic (`0.8 = 4/5`, `1.2 = 6/5`), which agrees with the IEEE
double computation for every realistic word count. -/

/-- `SentMonitorService.extractGreeting`: the trimmed first line when it
starts (case-insensitively) with one of the greeting openers, `''`
otherwise. -/
def extractGreeting (text : String) : String :=
  let lines := jsSplitChar '\n' text
  let firstLine := jsTrim (lines.headD "")
  let l := jsToLower firstLine
  if jsStarts l "hi" || jsStarts l "hello" || jsStarts l "hey" ||
      jsStarts l "good morning" || jsStarts l "good afternoon" then
    firstLine
  else ""

/-- `SentMonitorService.extractClosing`: the last three lines joined with a
space and trimmed, when they contain (case-insensitively) one of the closing
keywords, `''` otherwise. -/
def extractClosing (text : String) : String :=
  let lines := jsSplitChar '\n' text
  let lastLines := jsTrim (String.intercalate " " (lines.drop (lines.length - 3)))
  let l := jsToLower lastLines
  if containsSub l "best regards" || containsSub l "thanks" || containsSub l "thank you" ||
      containsSub l "cheers" || containsSub l "best" || containsSub l "sincerely" then
    lastLines
  else ""

/-- The length-preference branch of `analyzeStyleChanges`.  The JavaScript
comparisons `editedWords < originalWords * 0.8` and
`editedWords > originalWords * 1.2` are stated in exact integer arithmetic
(`5 * edited < 4 * original`, `5 * edited > 6 * original`), which agrees with
the IEEE double computation for every realistic word count. -/
def lengthFlags (original edited : String) : List String :=
  let originalWords := wordCountJs original
  let editedWords := wordCountJs edited
  if 5 * editedWords < 4 * originalWords then
    ["Amy prefers shorter responses"]
  else if 5 * editedWords > 6 * originalWords then
    ["Amy prefers more detailed responses"]
  else []

/-- The greeting-preference branch of `analyzeStyleChanges`. -/
def greetingFlags (original edited : String) : List String :=
  let originalGreeting := extractGreeting original
  let editedGreeting := extractGreeting edited
  if originalGreeting ≠ editedGreeting then
    ["Greeting preference: \x22" ++ editedGreeting ++ "\x22 over \x22" ++ originalGreeting ++ "\x22"]
  else []

/-- The closing-preference branch of `analyzeStyleChanges`. -/
def closingFlags (original edited : String) : List String :=
  let originalClosing := extractClosing original
  let editedClosing := extractClosing edited
  if originalClosing ≠ editedClosing then
    ["Closing preference: \x22" ++ editedClosing ++ "\x22 over \x22" ++ originalClosing ++ "\x22"]
  else []

/-- `SentMonitorService.analyzeStyleChanges`: the `styleChanges` list, in
push order. -/
def analyzeStyleChanges (original edited : String) : List String :=
  lengthFlags original edited ++ greetingFlags original edited ++ closingFlags original edited

/-! ## Voice Profile Builder (`LinkedInIngester`)

`buildVoiceProfile` runs four pure analysis passes over the extracted
corpus.  The lexicon regular expressions are alternations of literal
phrases matched case-insensitively and globally; they are modelled by a
scanner that, at each position, takes the first alternative matching there
(returning the original-case slice) and continues after it, exactly like a
JavaScript global regex.  The rhetorical-question pattern `/(\?[^?]*\?)/g`
gets its own scanner.  `Object` key order (insertion order for these keys)
and the ES2019-stable `Array.prototype.sort` are modelled by an
insertion-ordered count list and a stable insertion sort. -/

/-- `ciStarts a cs` : the alternative `a` matches at the head of `cs`,
comparing characters case-insensitively (JavaScript `i` flag). -/
def ciStarts : List Char → List Char → Bool
  | [], _ => true
  | _ :: _, [] => false
  | a :: alt, c :: cs => (a.toLower == c.toLower) && ciStarts alt cs

/-- Global case-insensitive matching of an alternation of literals: at each
position try the alternatives in order; on a match emit the original-case
slice and continue after it, otherwise advance one character. -/
def scanAlts (alts : List (List Char)) : List Char → List (List Char)
  | [] => []
  | c :: cs =>
    match alts.find? (fun a => ciStarts a (c :: cs)) with
    | some a =>
      if _h : a.length = 0 then
        scanAlts alts cs
      else
        (c :: cs).take a.length :: scanAlts alts ((c :: cs).drop a.length)
    | none => scanAlts alts cs
  termination_by cs => cs.length
  decreasing_by
  all_goals simp only [List.length_drop, List.length_cons]
  all_goals omega

/-- All matches of `/(lit1|lit2|..)/gi` in `text`, as strings. -/
def findAllAlts (alts : List String) (text : String) : List String :=
  (scanAlts (alts.map (fun a => a.toList)) text.toList).map String.mk

/-- All matches of `/(\?[^?]*\?)/g`: a `?`, a run of non-`?` characters, and
a closing `?`; matching continues after the closing `?`.  A position with no
closing `?` fails and the scan advances one character. -/
def scanQ : List Char → List (List Char)
  | [] => []
  | c :: cs =>
    if c = '?' then
      let seg := cs.takeWhile (fun ch => ch != '?')
      let rest := cs.dropWhile (fun ch => ch != '?')
      if rest.isEmpty then scanQ cs
      else (c :: seg ++ ['?']) :: scanQ rest.tail
    else scanQ cs
  termination_by cs => cs.length
  decreasing_by
  · simp
  · have h := length_dropWhile_le_self (fun ch => ch != '?') cs
    simp only [List.length_tail, List.length_cons]
    omega
  · simp

/-- The `reduce` of `findPatterns` building the count object: keys appear in
first-occurrence order, as JavaScript object insertion order. -/
def countsInOrder (ms : List String) : List (String × Nat) :=
  ms.foldl (fun acc m =>
    if acc.any (fun p => p.1 == m) then
      acc.map (fun p => if p.1 == m then (p.1, p.2 + 1) else p)
    else acc ++ [(m, 1)]) []

/-- Stable insertion by descending count: an element is placed before the
first entry whose count is not larger, so entries with equal counts keep
their original relative order (ES2019 stable sort with `(a, b) => b - a`). -/
def insertByCountDesc (x : String × Nat) : List (String × Nat) → List (String × Nat)
  | [] => [x]
  | y :: ys => if y.2 > x.2 then y :: insertByCountDesc x ys else x :: y :: ys

/-- Stable sort by descending count. -/
def sortByCountDesc (l : List (String × Nat)) : List (String × Nat) :=
  l.foldr insertByCountDesc []

/-- Rank matches by frequency and keep the top 10 (`findPatterns` tail). -/
def rankTopTen (ms : List String) : List String :=
  ((sortByCountDesc (countsInOrder ms)).take 10).map (fun p => p.1)

/-- `LinkedInIngester.findPatterns` for a list of literal-alternation
regexes: collect the matches of each regex in order, trim each, count and
rank. -/
def findPatternsLit (text : String) (patternAlts : List (List String)) : List String :=
  rankTopTen (((patternAlts.map (fun alts => findAllAlts alts text)).flatten).map (fun m => jsTrim m))

/-- `LinkedInIngester.findPatterns` for the rhetorical-question regex. -/
def findPatternsQ (text : String) : List String :=
  rankTopTen ((scanQ text.toList).map (fun l => jsTrim (String.mk l)))

/-- `VoiceProfile.lexicon` from the source. -/
structure Lexicon where
  commonOpeners : List String
  commonClosers : List String
  signOffs : List String
  hedges : List String
  rhetoricalQuestions : List String
deriving DecidableEq, Repr

/-- `VoiceProfile.cadence`; the JavaScript divisions (which give `NaN` on an
empty corpus) are exact rational divisions here, with `x / 0 = 0`. -/
structure Cadence where
  averageSentenceLength : ℚ
  averageParagraphCount : ℚ
  bulletUsage : ℚ
deriving DecidableEq, Repr

/-- `VoiceProfile.toneSliders`. -/
structure ToneSliders where
  warmth : ℚ
  directness : ℚ
  formality : ℚ
deriving DecidableEq, Repr

/-- `VoiceProfile`. -/
structure VoiceProfile where
  lexicon : Lexicon
  cadence : Cadence
  toneSliders : ToneSliders
  signatureMoves : List String
deriving DecidableEq, Repr

/-- One extracted corpus document (`LinkedInContent`); `kind` is one of
`article | post | comment | share`, kept as a string. -/
structure LinkedInContent where
  text : String
  date : String
  url : String
  kind : String
  source : String
deriving DecidableEq, Repr

/-- `LinkedInIngester.analyzeLexicon`: the five pattern families. -/
def analyzeLexicon (text : String) : Lexicon :=
  { commonOpeners := findPatternsLit text
      [["Happy to", "Glad to", "Excited to", "Pleased to"],
       ["Two quick", "Three quick", "A few quick"],
       ["If helpful", "If useful", "If relevant"]]
    commonClosers := findPatternsLit text
      [["Let me know", "Feel free to", "Happy to help", "Hope this helps"],
       ["Best regards", "Thanks", "Thank you", "Cheers"]]
    signOffs := findPatternsLit text [["Best", "Cheers", "Thanks", "Regards"]]
    hedges := findPatternsLit text
      [["I think", "I believe", "I feel", "Perhaps", "Maybe", "Possibly"]]
    rhetoricalQuestions := findPatternsQ text }

/-- `LinkedInIngester.analyzeCadence`: sentence split on `/[.!?]+/`,
paragraph split on `/\n+/`, word count per document via `split(' ')`, bullet
usage as the fraction of documents containing `•` or `-`. -/
def analyzeCadence (content : List LinkedInContent) : Cadence :=
  let sentences := (content.map (fun c =>
    splitRuns (fun ch => ch == '.' || ch == '!' || ch == '?') c.text)).flatten
  let paragraphs := (content.map (fun c => splitRuns (fun ch => ch == '\n') c.text)).flatten
  let totalWords : Nat := content.foldl (fun sum c => sum + (splitChar ' ' c.text.toList).length) 0
  let bulletCount := (content.filter (fun c => c.text.toList.contains '•' || c.text.toList.contains '-')).length
  { averageSentenceLength := (totalWords : ℚ) / (sentences.length : ℚ)
    averageParagraphCount := (paragraphs.length : ℚ) / (content.length : ℚ)
    bulletUsage := (bulletCount : ℚ) / (content.length : ℚ) }

/-- `LinkedInIngester.calculateToneScore`: fraction of the keyword list
found in the lower-cased corpus text, capped at 1. -/
def calculateToneScore (text : String) (words : List String) : ℚ :=
  let lowerText := jsToLower text
  let matchCount := (words.filter (fun w => containsSub lowerText w)).length
  min ((matchCount : ℚ) / (words.length : ℚ)) 1

/-- `LinkedInIngester.analyzeTone`. -/
def analyzeTone (text : String) : ToneSliders :=
  { warmth := calculateToneScore text ["happy", "excited", "pleased", "wonderful", "great", "love"]
    directness := calculateToneScore text
      ["directly", "clearly", "specifically", "exactly", "precisely"]
    formality := calculateToneScore text
      ["please", "thank you", "regards", "sincerely", "respectfully"] }

/-- `LinkedInIngester.identifySignatureMoves`: three prevalence heuristics
with thresholds 0.3, 0.4 and 0.5. -/
def identifySignatureMoves (content : List LinkedInContent) : List String :=
  let n := (content.length : ℚ)
  let startWithWhy := (((content.filter (fun c =>
    jsStarts (jsToLower c.text) "why" || jsStarts (jsToLower c.text) "because" ||
      jsStarts (jsToLower c.text) "the reason")).length : ℚ)) / n
  let useBullets := ((content.filter (fun c =>
    c.text.toList.contains '•' || c.text.toList.contains '-')).length : ℚ) / n
  let endWithCTA := ((content.filter (fun c =>
    containsSub (jsToLower c.text) "let me know" || containsSub (jsToLower c.text) "feel free" ||
      containsSub (jsToLower c.text) "get in touch")).length : ℚ) / n
  (if startWithWhy > 0.3 then ["Start with a quick \x22why\x22"] else []) ++
    (if useBullets > 0.4 then ["Use bullet points for clarity"] else []) ++
    (if endWithCTA > 0.5 then ["End with clear call-to-action"] else [])

/-- `LinkedInIngester.buildVoiceProfile`: a pure function of the extracted
corpus, in input order. -/
def buildVoiceProfile (content : List LinkedInContent) : VoiceProfile :=
  let allText := String.intercalate " " (content.map (fun c => c.text))
  { lexicon := analyzeLexicon allText
    cadence := analyzeCadence content
    toneSliders := analyzeTone allText
    signatureMoves := identifySignatureMoves content }

/-! ## The AI reply filter cache (`InboxScoutAgent`)

`aiFilterCache` is a JavaScript `Map` from a cache key
(`address + '_' + subject.substring(0, 50)`) to a boolean.  After computing a
decision, `shouldAmyReplyToEmail` runs:
`if (size > 1000) delete(firstKey); set(cacheKey, shouldReply)`.
A `Map` is modelled as a list of key-value pairs in insertion order; `set`
updates in place or appends, `delete(firstKey)` drops the head. -/

/-- The cache key built by `shouldAmyReplyToEmail`. -/
def aiFilterCacheKey (address subject : String) : String :=
  address ++ "_" ++ jsTruncate subject 50

/-- JavaScript `Map.prototype.set` on an insertion-ordered pair list. -/
def mapSet {κ : Type} [DecidableEq κ] (m : List (κ × Bool)) (k : κ) (v : Bool) :
    List (κ × Bool) :=
  if m.any (fun p => p.1 == k) then
    m.map (fun p => if p.1 == k then (k, v) else p)
  else m ++ [(k, v)]

/-- The cache update performed by `shouldAmyReplyToEmail` after each AI
decision: evict the oldest entry when the size exceeds 1000, then insert. -/
def aiFilterCacheInsert {κ : Type} [DecidableEq κ] (m : List (κ × Bool)) (k : κ) (v : Bool) :
    List (κ × Bool) :=
  let m2 := if m.length > 1000 then m.tail else m
  mapSet m2 k v

/-- The cache contents after a sequence of insertions starting from the
empty cache of a fresh process. -/
def aiFilterCacheRun {κ : Type} [DecidableEq κ] (ops : List (κ × Bool)) : List (κ × Bool) :=
  ops.foldl (fun m kv => aiFilterCacheInsert m kv.1 kv.2) []

/-! ## Shared lemmas -/

/-- Length of a string built from an explicit character list. -/
theorem stringLengthMk (l : List Char) : (String.mk l).length = l.length := rfl

/-- Filtering a list by non-membership in itself yields the empty list. -/
theorem filter_not_contains_self (l : List String) :
    l.filter (fun w => !(l.contains w)) = [] := by
  rw [List.filter_eq_nil_iff]
  intro a ha
  simpa using ha

/-- `e < o * 0.8` over the rationals, in integer form. -/
theorem lt_point_eight_iff (e o : ℕ) : ((e : ℚ) < (o : ℚ) * 0.8) ↔ 5 * e < 4 * o := by
  rw [show (0.8 : ℚ) = 4 / 5 by norm_num, show (o : ℚ) * (4 / 5) = 4 * o / 5 by ring,
    lt_div_iff₀ (by norm_num : (0 : ℚ) < 5)]
  constructor
  · intro h
    have h2 : ((5 * e : ℕ) : ℚ) < ((4 * o : ℕ) : ℚ) := by push_cast; linarith
    exact_mod_cast h2
  · intro h
    have h2 : ((5 * e : ℕ) : ℚ) < ((4 * o : ℕ) : ℚ) := by exact_mod_cast h
    push_cast at h2
    linarith

/-- `e > o * 1.2` over the rationals, in integer form. -/
theorem gt_one_point_two_iff (e o : ℕ) : ((e : ℚ) > (o : ℚ) * 1.2) ↔ 5 * e > 6 * o := by
  rw [show (1.2 : ℚ) = 6 / 5 by norm_num, show (o : ℚ) * (6 / 5) = 6 * o / 5 by ring,
    gt_iff_lt, div_lt_iff₀ (by norm_num : (0 : ℚ) < 5)]
  constructor
  · intro h
    have h2 : ((6 * o : ℕ) : ℚ) < ((5 * e : ℕ) : ℚ) := by push_cast; linarith
    exact_mod_cast h2
  · intro h
    have h2 : ((6 * o : ℕ) : ℚ) < ((5 * e : ℕ) : ℚ) := by exact_mod_cast h
    push_cast at h2
    linarith

/-! ## C1 — embedding input versus stored text -/

/-- A conversation whose body is 1001 characters long. -/
def c1LongCtx : ConversationContext :=
  ⟨"email-1", "Hello", "x@y.com", String.mk (List.replicate 1001 'a'), "2025-01-01", none⟩

/-- C1, counterexample.  The claim says the vector upserted by
`storeConversation` equals the embedding of the text stored in the record
metadata.  For a 1001-character body the embedded text
(`"Subject: Hello\nFrom: x@y.com\n"` plus the full body, 1030 characters) is
not the stored text (the body truncated to 1000 characters): the embedding
input even contains body characters that are stored nowhere in the
record. -/
theorem c1_counterexample :
    (storeConversation c1LongCtx).embedInput ≠ (storeConversation c1LongCtx).storedBody ∧
    (storeConversation c1LongCtx).storedBody.length = 1000 ∧
    (storeConversation c1LongCtx).embedInput.length = 1030 := by
  refine ⟨by decide, ?_, ?_⟩
  · show (String.mk ((List.replicate 1001 'a').take 1000)).length = 1000
    rw [stringLengthMk, List.length_take, List.length_replicate]
    decide
  · show ("Subject: " ++ "Hello" ++ "\nFrom: " ++ "x@y.com" ++ "\n" ++
      String.mk (List.replicate 1001 'a')).length = 1030
    rw [String.length_append, String.length_append, String.length_append,
      String.length_append, String.length_append]
    simp only [stringLengthMk, List.length_replicate]
    decide

/-- C1, amended.  `storeVoicePattern` embeds exactly the stored pattern text
(no truncation is applied to the stored copy at all), while
`storeConversation` embeds the search text built from the subject, sender and
the full, untruncated body and stores the body truncated to its first 1000
characters — so for conversations the embedding input and the stored text
coincide only as long as the body fits the truncation bound and the header
prefix is taken into account. -/
theorem c1_amended :
    (∀ p : VoicePatternInput,
      (storeVoicePattern p).embedInput = (storeVoicePattern p).pattern) ∧
    (∀ ctx : ConversationContext,
      (storeConversation ctx).embedInput =
        "Subject: " ++ ctx.subject ++ "\nFrom: " ++ ctx.fromAddr ++ "\n" ++ ctx.body ∧
      (storeConversation ctx).storedBody = jsTruncate ctx.body 1000) :=
  ⟨fun _ => rfl, fun _ => ⟨rfl, rfl⟩⟩

/-! ## C2 — quota backoff and recovery -/

/-- C2.  If the embeddings endpoint fails with a quota error on attempts 1
and 2 and succeeds on attempt 3, `generateEmbedding` waits exactly 60000 ms
(60 s) before the second attempt and 120000 ms (120 s) before the third,
makes 3 provider calls, and returns the successful embedding; if all three
attempts fail with quota errors, the same waits happen and the quota error is
propagated to the caller. -/
theorem c2_retry_behaviour (provider : String → Nat → AttemptOutcome) (t : String)
    (v : List Int) :
    (provider t 0 = .quotaError → provider t 1 = .quotaError → provider t 2 = .success v →
      generateEmbedding provider t = ⟨.ok v, [60000, 120000], 3⟩) ∧
    (provider t 0 = .quotaError → provider t 1 = .quotaError → provider t 2 = .quotaError →
      generateEmbedding provider t = ⟨.errQuota, [60000, 120000], 3⟩) := by
  constructor
  · intro h0 h1 h2
    simp [generateEmbedding, generateEmbeddingGo, maxRetries, h0, h1, h2]
  · intro h0 h1 h2
    simp [generateEmbedding, generateEmbeddingGo, maxRetries, h0, h1, h2]

/-- C2, witness: a provider succeeding on its third attempt, and one that is
always out of quota. -/
theorem c2_retry_behaviour_witness :
    generateEmbedding (fun _ i => if i = 2 then .success [7] else .quotaError) "t" =
      ⟨.ok [7], [60000, 120000], 3⟩ ∧
    generateEmbedding (fun _ _ => .quotaError) "t" = ⟨.errQuota, [60000, 120000], 3⟩ :=
  ⟨(c2_retry_behaviour (fun _ i => if i = 2 then .success [7] else .quotaError) "t" [7]).1
      rfl rfl rfl,
    (c2_retry_behaviour (fun _ _ => .quotaError) "t" [7]).2 rfl rfl rfl⟩

/-! ## C3 — no empty-input special case -/

/-- C3, counterexample.  The claim says an embed call on empty text fails
immediately with `InvalidInput`, with no provider call and no backoff wait.
In the code there is no empty-input check at all: with a provider that
rejects every attempt with a non-quota error, `generateEmbedding ""` makes 3
provider calls, waits 1000 ms and 2000 ms between them, and propagates the
provider error — not an `InvalidInput`-style immediate failure. -/
theorem c3_counterexample :
    generateEmbedding (fun _ _ => .otherError) "" = ⟨.errOther, [1000, 2000], 3⟩ ∧
    (generateEmbedding (fun _ _ => .otherError) "").attempts ≠ 0 ∧
    (generateEmbedding (fun _ _ => .otherError) "").waits ≠ [] := by
  refine ⟨by decide, by decide, by decide⟩

/-- C3, amended.  `generateEmbedding` never short-circuits on its input: for
every text (the empty string included) at least one provider call is made,
and when every attempt fails with a non-quota error the call is retried with
1 s and 2 s backoff waits and the provider error is propagated after the
third attempt.  There is no `InvalidInput` error path in the code. -/
theorem c3_amended (provider : String → Nat → AttemptOutcome) (text : String) :
    1 ≤ (generateEmbedding provider text).attempts ∧
    ((∀ i, provider text i = .otherError) →
      generateEmbedding provider text = ⟨.errOther, [1000, 2000], 3⟩) := by
  constructor
  · cases h : provider text 0 <;>
      simp [generateEmbedding, generateEmbeddingGo, maxRetries, h]
  · intro h
    simp [generateEmbedding, generateEmbeddingGo, maxRetries, h 0, h 1, h 2]

/-- C3, amended, witness: the all-rejecting provider on the empty string. -/
theorem c3_amended_witness :
    1 ≤ (generateEmbedding (fun _ _ => .otherError) "").attempts ∧
    generateEmbedding (fun _ _ => .otherError) "" = ⟨.errOther, [1000, 2000], 3⟩ :=
  ⟨(c3_amended (fun _ _ => .otherError) "").1,
    (c3_amended (fun _ _ => .otherError) "").2 (fun _ => rfl)⟩

/-! ## C4 — a no-op edit learns nothing -/

/-- C4.  Learning from an edit whose edited text equals the original yields
no added words, no removed words, no extracted patterns, and stores no
voice-pattern record. -/
theorem c4_identical_edit_learns_nothing (t ctx : String) :
    addedWords t t = [] ∧ removedWords t t = [] ∧
    extractEditPatterns t t = [] ∧ learnFromEdit t t ctx = [] := by
  have hA : addedWords t t = [] := filter_not_contains_self _
  have hR : removedWords t t = [] := filter_not_contains_self _
  have hP : extractEditPatterns t t = [] := by
    simp [extractEditPatterns, hA, hR]
  exact ⟨hA, hR, hP, by simp [learnFromEdit, hP]⟩

/-! ## C5 — records persisted per learning event -/

/-- C5, counterexample.  The claim says a learning event with non-empty
added phrases persists exactly one record, with `source = email-edit`.  On
`learnFromEdit "hello world" "hello friend"` the added phrases are non-empty
yet two records are persisted (one for the added words and one for the
removed words), and every stored record carries `source = "edit"`, not
`email-edit`. -/
theorem c5_counterexample :
    addedWords "hello world" "hello friend" ≠ [] ∧
    (learnFromEdit "hello world" "hello friend" "draft-1").length = 2 ∧
    ∀ r ∈ learnFromEdit "hello world" "hello friend" "draft-1", r.source = "edit" := by
  refine ⟨by decide, by decide, by decide⟩

/-- C5, amended.  Every learning event persists one record per non-empty
delta group — one `"Added: .."` record when the added-word set is non-empty
and one `"Removed: .."` record when the removed-word set is non-empty (so
one record when only words were added, two when words were both added and
removed) — and every record persisted carries `frequency = 1`, the
originating context string, and `source = "edit"`. -/
theorem c5_one_record_per_group (draft sent ctx : String) :
    (∀ r ∈ learnFromEdit draft sent ctx,
      r.frequency = 1 ∧ r.context = ctx ∧ r.source = "edit") ∧
    (addedWords draft sent ≠ [] ∧ removedWords draft sent = [] →
      (learnFromEdit draft sent ctx).length = 1) ∧
    (addedWords draft sent ≠ [] ∧ removedWords draft sent ≠ [] →
      (learnFromEdit draft sent ctx).length = 2) := by
  refine ⟨?_, ?_, ?_⟩
  · intro r hr
    obtain ⟨p, _, hfp⟩ := List.mem_map.mp hr
    rw [← hfp]
    exact ⟨rfl, rfl, rfl⟩
  · intro ⟨hA, hR⟩
    have hA2 : (addedWords draft sent).length > 0 := List.length_pos.mpr hA
    simp [learnFromEdit, extractEditPatterns, hA2, hR]
  · intro ⟨hA, hR⟩
    have hA2 : (addedWords draft sent).length > 0 := List.length_pos.mpr hA
    have hR2 : (removedWords draft sent).length > 0 := List.length_pos.mpr hR
    simp [learnFromEdit, extractEditPatterns, hA2, hR2]

/-- C5, amended, witness: an edit with one added and one removed word stores
two records; an edit that only adds a word stores one. -/
theorem c5_one_record_per_group_witness :
    (learnFromEdit "hello world" "hello friend" "draft-2").length = 2 ∧
    (learnFromEdit "same text" "same text friend" "draft-3").length = 1 :=
  ⟨(c5_one_record_per_group "hello world" "hello friend" "draft-2").2.2 ⟨by decide, by decide⟩,
    (c5_one_record_per_group "same text" "same text friend" "draft-3").2.1
      ⟨by decide, by decide⟩⟩

/-! ## C7 — quota error aborts the batch -/

/-- C7.  Ingesting a 5-post corpus whose third post hits a quota error
reports exactly 2 successes, attempts only 3 posts (posts 4 and 5 are
skipped, whatever their outcome would have been), and surfaces an aborted
outcome carrying the processed and skipped counts — never a completed
(silent-success) outcome. -/
theorem c7_quota_aborts_batch (o4 o5 : PostOutcome) :
    ingestLinkedInContent [.ok, .ok, .quotaError, o4, o5] = .abortedQuota 2 1 3 2 ∧
    ∀ s e a, ingestLinkedInContent [.ok, .ok, .quotaError, o4, o5] ≠ .completed s e a := by
  refine ⟨rfl, ?_⟩
  intro s e a h
  simp [ingestLinkedInContent, ingestGo] at h

/-! ## C6 — style-change analysis -/

set_option maxRecDepth 40000 in
/-- C6, counterexample.  On the spec scenario texts taken literally (single
lines, word counts 16 and 14 under `split(' ')`), no length-preference flag
is emitted — but because `extractGreeting` returns the whole first line and
`extractClosing` the whole last-three-lines text, both extracted values
change, so a greeting note and a closing note ARE emitted, contradicting the
claim that no greeting or closing preference note appears. -/
theorem c6_counterexample :
    wordCountJs "Hi John, Thanks for reaching out. I will review and get back to you. Best, Amy" = 16 ∧
    wordCountJs "Hi John, Happy to take a look and follow up by Friday. Best, Amy" = 14 ∧
    analyzeStyleChanges
        "Hi John, Thanks for reaching out. I will review and get back to you. Best, Amy"
        "Hi John, Happy to take a look and follow up by Friday. Best, Amy" =
      ["Greeting preference: \x22Hi John, Happy to take a look and follow up by Friday. Best, Amy\x22 over \x22Hi John, Thanks for reaching out. I will review and get back to you. Best, Amy\x22",
       "Closing preference: \x22Hi John, Happy to take a look and follow up by Friday. Best, Amy\x22 over \x22Hi John, Thanks for reaching out. I will review and get back to you. Best, Amy\x22"] := by
  refine ⟨by decide, by decide, by decide⟩

/-- C6, amended.  The length flags are exact: `prefers shorter` is emitted
exactly when the edited word count is below 0.8 times the original and
`prefers more detailed` exactly when it exceeds 1.2 times; a greeting
(resp. closing) note is omitted whenever the extracted greeting
(resp. closing) strings are equal.  On the spec scenario texts (ratio 14/16)
no length flag is emitted, but since the code extracts the whole first line
as the greeting and the whole last-three-lines text as the closing, the
single-line scenario texts do produce a greeting and a closing note (see the
counterexample); no note appears only for formattings that leave those
extracted strings unchanged. -/
theorem c6_length_flags_exact (original edited : String) :
    ("Amy prefers shorter responses" ∈ analyzeStyleChanges original edited ↔
      (wordCountJs edited : ℚ) < (wordCountJs original : ℚ) * 0.8) ∧
    ("Amy prefers more detailed responses" ∈ analyzeStyleChanges original edited ↔
      (wordCountJs edited : ℚ) > (wordCountJs original : ℚ) * 1.2) ∧
    (extractGreeting original = extractGreeting edited → greetingFlags original edited = []) ∧
    (extractClosing original = extractClosing edited → closingFlags original edited = []) := by
  have hnotG : ∀ t : String, t.data.head? = some 'A' → t ∉ greetingFlags original edited := by
    intro t ht hmem
    by_cases h : extractGreeting original = extractGreeting edited
    · simp [greetingFlags, h] at hmem
    · simp [greetingFlags, h] at hmem
      rw [hmem] at ht
      have h2 : some 'G' = some 'A' := ht
      simp at h2
  have hnotC : ∀ t : String, t.data.head? = some 'A' → t ∉ closingFlags original edited := by
    intro t ht hmem
    by_cases h : extractClosing original = extractClosing edited
    · simp [closingFlags, h] at hmem
    · simp [closingFlags, h] at hmem
      rw [hmem] at ht
      have h2 : some 'C' = some 'A' := ht
      simp at h2
  have hsplit : ∀ t : String, t.data.head? = some 'A' →
      (t ∈ analyzeStyleChanges original edited ↔ t ∈ lengthFlags original edited) := by
    intro t ht
    simp only [analyzeStyleChanges, List.mem_append]
    constructor
    · rintro ((h | h) | h)
      · exact h
      · exact absurd h (hnotG t ht)
      · exact absurd h (hnotC t ht)
    · exact fun h => Or.inl (Or.inl h)
  refine ⟨?_, ?_, ?_, ?_⟩
  · rw [hsplit "Amy prefers shorter responses" rfl, lt_point_eight_iff]
    unfold lengthFlags
    by_cases h1 : 5 * wordCountJs edited < 4 * wordCountJs original
    · simp [h1]
    · by_cases h2 : 5 * wordCountJs edited > 6 * wordCountJs original
      · simp [h1, h2]
      · simp [h1, h2]
  · rw [hsplit "Amy prefers more detailed responses" rfl, gt_one_point_two_iff]
    unfold lengthFlags
    by_cases h1 : 5 * wordCountJs edited < 4 * wordCountJs original
    · simp [h1]
      omega
    · by_cases h2 : 5 * wordCountJs edited > 6 * wordCountJs original
      · simp [h1, h2]
      · simp [h1, h2]
  · intro h
    simp [greetingFlags, h]
  · intro h
    simp [closingFlags, h]

/-- C6, amended, witness: a pair of multi-line texts whose first line and
last three lines are unchanged gets neither a greeting nor a closing
note. -/
theorem c6_length_flags_exact_witness :
    greetingFlags "Hi Bob,\nsee you soon\nok\nBest,\nAmy" "Hi Bob,\ntalk later\nok\nBest,\nAmy" = [] ∧
    closingFlags "Hi Bob,\nsee you soon\nok\nBest,\nAmy" "Hi Bob,\ntalk later\nok\nBest,\nAmy" = [] :=
  ⟨(c6_length_flags_exact "Hi Bob,\nsee you soon\nok\nBest,\nAmy"
      "Hi Bob,\ntalk later\nok\nBest,\nAmy").2.2.1 (by decide),
    (c6_length_flags_exact "Hi Bob,\nsee you soon\nok\nBest,\nAmy"
      "Hi Bob,\ntalk later\nok\nBest,\nAmy").2.2.2 (by decide)⟩

/-! ## C8 — the context assembler degrades, never raises -/

/-- C8.  Every retrieval path catches its failures: when the embedding call
fails, or the namespace query fails, `getConversationHistory`,
`searchRelevantContext` and `getVoicePatterns` return `[]` instead of
propagating the error; and when every external call fails,
`buildContextForDraft` and `getVoiceGuidance` return the empty string.  (In
this embedding the assembler functions are total by construction, mirroring
the `try/catch` wrappers in the source: no error value ever escapes
them.) -/
theorem c8_retrieval_degrades :
    (∀ (ops : MemoryOps) (contactEmail : String) (limit : Nat) (e : MemErr),
      ops.embed contactEmail = .error e → getConversationHistory ops contactEmail limit = []) ∧
    (∀ (ops : MemoryOps) (contactEmail : String) (limit : Nat) (v : List Int) (e : MemErr),
      ops.embed contactEmail = .ok v → ops.queryConversations v limit contactEmail = .error e →
      getConversationHistory ops contactEmail limit = []) ∧
    (∀ (ops : MemoryOps) (query contactEmail : String) (limit : Nat) (e : MemErr),
      ops.embed query = .error e → searchRelevantContext ops query contactEmail limit = []) ∧
    (∀ (ops : MemoryOps) (limit : Nat) (e : MemErr),
      ops.embed "email communication style tone voice" = .error e →
      getVoicePatterns ops limit = []) ∧
    (∀ (ops : MemoryOps) (c b : String), (∀ t, ∃ e, ops.embed t = .error e) →
      buildContextForDraft ops c b = "" ∧ getVoiceGuidance ops (some b) = "") := by
  have h1 : ∀ (ops : MemoryOps) (contactEmail : String) (limit : Nat) (e : MemErr),
      ops.embed contactEmail = .error e → getConversationHistory ops contactEmail limit = [] := by
    intro ops ce lim e h
    simp [getConversationHistory, h, Bind.bind, Except.bind, Functor.map, Except.map,
      Except.instMonad]
  have h3 : ∀ (ops : MemoryOps) (query contactEmail : String) (limit : Nat) (e : MemErr),
      ops.embed query = .error e → searchRelevantContext ops query contactEmail limit = [] := by
    intro ops q ce lim e h
    simp [searchRelevantContext, h, Bind.bind, Except.bind, Functor.map, Except.map,
      Except.instMonad]
  have h4 : ∀ (ops : MemoryOps) (limit : Nat) (e : MemErr),
      ops.embed "email communication style tone voice" = .error e →
      getVoicePatterns ops limit = [] := by
    intro ops lim e h
    simp [getVoicePatterns, h, Bind.bind, Except.bind, Functor.map, Except.map, Except.instMonad]
  refine ⟨h1, ?_, h3, h4, ?_⟩
  · intro ops ce lim v e h h2
    simp [getConversationHistory, h, h2, Bind.bind, Except.bind, Functor.map, Except.map,
      Except.instMonad]
  · intro ops c b h
    obtain ⟨e1, he1⟩ := h c
    obtain ⟨e2, he2⟩ := h b
    obtain ⟨e3, he3⟩ := h "email communication style tone voice"
    constructor
    · simp [buildContextForDraft, h1 ops c 3 e1 he1, h3 ops b c 2 e2 he2,
        pastConversationsSection, relevantContextSection]
    · by_cases hb : b.length > 0
      · simp [getVoiceGuidance, hb, he2, Bind.bind, Except.bind, Functor.map, Except.map,
          Except.instMonad]
      · simp [getVoiceGuidance, hb, h4 ops 10 e3 he3, Bind.bind, Except.bind, Functor.map,
          Except.map, Except.instMonad, Pure.pure, Except.pure]

/-- The external world in which every call fails. -/
def c8FailOps : MemoryOps :=
  { embed := fun _ => .error ⟨"provider down"⟩
    queryConversations := fun _ _ _ => .error ⟨"store down"⟩
    queryVoice := fun _ _ _ => .error ⟨"store down"⟩ }

/-- C8, witness: with every external call failing, the helpers return `[]`
and the assembled context and voice guidance are empty strings. -/
theorem c8_retrieval_degrades_witness :
    getConversationHistory c8FailOps "a@b.c" 3 = [] ∧
    searchRelevantContext c8FailOps "hello" "a@b.c" 2 = [] ∧
    getVoicePatterns c8FailOps 10 = [] ∧
    buildContextForDraft c8FailOps "a@b.c" "hello" = "" ∧
    getVoiceGuidance c8FailOps (some "hello") = "" :=
  ⟨c8_retrieval_degrades.1 c8FailOps "a@b.c" 3 ⟨"provider down"⟩ rfl,
    c8_retrieval_degrades.2.2.1 c8FailOps "hello" "a@b.c" 2 ⟨"provider down"⟩ rfl,
    c8_retrieval_degrades.2.2.2.1 c8FailOps 10 ⟨"provider down"⟩ rfl,
    (c8_retrieval_degrades.2.2.2.2 c8FailOps "a@b.c" "hello"
      (fun _ => ⟨⟨"provider down"⟩, rfl⟩)).1,
    (c8_retrieval_degrades.2.2.2.2 c8FailOps "a@b.c" "hello"
      (fun _ => ⟨⟨"provider down"⟩, rfl⟩)).2⟩

/-! ## C9 — the AI filter cache bound -/

/-- Distinct cache keys for the C9 analysis: the key of index `i` is the
string of `i` repeated characters, so keys of different indices differ. -/
def c9Key (i : Nat) : String :=
  String.mk (List.replicate i 'a')

/-- `c9Key` is injective (the key length is the index). -/
theorem c9Key_injective (i j : Nat) (h : c9Key i = c9Key j) : i = j := by
  have h2 := congrArg (fun s => s.data.length) h
  simpa [c9Key] using h2

/-- The key of index `n` is fresh for the cache holding keys `0 .. n-1`. -/
theorem c9Key_fresh (n : Nat) :
    ((List.range n).map (fun i => (c9Key i, true))).any (fun p => p.1 == c9Key n) = false := by
  rw [List.any_eq_false]
  intro p hp
  obtain ⟨i, hi, rfl⟩ := List.mem_map.mp hp
  have hlt : i < n := List.mem_range.mp hi
  simp only [beq_iff_eq]
  intro he
  exact absurd (c9Key_injective i n he) (by omega)

/-- Inserting `1001` distinct keys into the cache, starting empty, never
triggers the eviction branch (it fires only above 1000 entries), so the
cache ends up holding all of them. -/
theorem c9_cacheRun_distinct (n : Nat) (hn : n ≤ 1001) :
    aiFilterCacheRun ((List.range n).map (fun i => (c9Key i, true))) =
      (List.range n).map (fun i => (c9Key i, true)) := by
  induction n with
  | zero => simp [aiFilterCacheRun]
  | succ n ih =>
    rw [List.range_succ, List.map_append]
    unfold aiFilterCacheRun at *
    rw [List.foldl_append, ih (by omega)]
    show aiFilterCacheInsert ((List.range n).map (fun i => (c9Key i, true))) (c9Key n) true = _
    have hlen : ¬(((List.range n).map (fun i => (c9Key i, true))).length > 1000) := by
      simp only [List.length_map, List.length_range]
      omega
    simp only [aiFilterCacheInsert, hlen, if_false, mapSet, c9Key_fresh n, List.map_append]
    simp

/-- C9, counterexample.  The claim says that after every insertion the cache
holds at most 1000 entries.  Starting from the empty cache, 1001 insertions
with distinct keys leave the cache holding 1001 entries: the eviction guard
(`size > 1000`) runs before the insertion, so the `set` that takes the map
from 1000 to 1001 entries evicts nothing. -/
theorem c9_counterexample :
    (aiFilterCacheRun ((List.range 1001).map (fun i => (c9Key i, true)))).length = 1001 := by
  rw [c9_cacheRun_distinct 1001 (by omega)]
  simp

/-- C9, amended.  The cache is bounded by 1001 entries, not 1000: any
sequence of insertions starting from the empty cache leaves at most 1001
entries, and when an insertion finds the cache above 1000 entries it evicts
the oldest entry (the head of the insertion-ordered map) before
inserting. -/
theorem c9_cache_bounded_by_1001 :
    (∀ ops : List (String × Bool), (aiFilterCacheRun ops).length ≤ 1001) ∧
    (∀ (m : List (String × Bool)) (k : String) (v : Bool), 1000 < m.length →
      aiFilterCacheInsert m k v = mapSet m.tail k v) := by
  have hms : ∀ (m : List (String × Bool)) (k : String) (v : Bool),
      (mapSet m k v).length ≤ m.length + 1 := by
    intro m k v
    unfold mapSet
    split
    · simp
    · simp
  have hins : ∀ (m : List (String × Bool)) (k : String) (v : Bool), m.length ≤ 1001 →
      (aiFilterCacheInsert m k v).length ≤ 1001 := by
    intro m k v h
    unfold aiFilterCacheInsert
    dsimp only
    split
    · have h2 := hms m.tail k v
      have h3 : m.tail.length = m.length - 1 := List.length_tail m
      omega
    · have h2 := hms m k v
      omega
  have hfold : ∀ (ops : List (String × Bool)) (m : List (String × Bool)), m.length ≤ 1001 →
      (ops.foldl (fun m kv => aiFilterCacheInsert m kv.1 kv.2) m).length ≤ 1001 := by
    intro ops
    induction ops with
    | nil => intro m h; simpa using h
    | cons kv rest ih => intro m h; exact ih _ (hins m kv.1 kv.2 h)
  constructor
  · intro ops
    exact hfold ops [] (by simp)
  · intro m k v h
    simp [aiFilterCacheInsert, h]

/-- The cache filled with 1001 distinct keys. -/
def c9BigCache : List (String × Bool) :=
  (List.range 1001).map (fun i => (c9Key i, true))

/-- C9, amended, witness: an insertion into the 1001-entry cache drops the
oldest entry first. -/
theorem c9_cache_bounded_by_1001_witness :
    aiFilterCacheInsert c9BigCache (c9Key 2000) false = mapSet c9BigCache.tail (c9Key 2000) false :=
  c9_cache_bounded_by_1001.2 c9BigCache (c9Key 2000) false
    (by simp [c9BigCache])

/-! ## C10 — the voice profile builder is deterministic -/

/-- C10.  `buildVoiceProfile` is a pure function of the input corpus in its
given order: two runs on equal inputs produce equal lexicon rankings
(including the order among tied frequencies, fixed by the stable sort and
the first-occurrence count order), equal cadence statistics, equal
tone-slider values, and equal signature-move lists.  The embedding makes the
absence of hidden state or randomness explicit: every analysis pass is a
deterministic function of `content` alone. -/
theorem c10_buildVoiceProfile_deterministic (c1 c2 : List LinkedInContent) (h : c1 = c2) :
    (buildVoiceProfile c1).lexicon = (buildVoiceProfile c2).lexicon ∧
    (buildVoiceProfile c1).cadence = (buildVoiceProfile c2).cadence ∧
    (buildVoiceProfile c1).toneSliders = (buildVoiceProfile c2).toneSliders ∧
    (buildVoiceProfile c1).signatureMoves = (buildVoiceProfile c2).signatureMoves := by
  subst h
  exact ⟨rfl, rfl, rfl, rfl⟩

/-- A small concrete corpus. -/
def c10Corpus : List LinkedInContent :=
  [⟨"Why is this useful? Happy to share - let me know!", "2024-01-01", "", "post", "Posts.csv"⟩,
   ⟨"Glad to help. Thanks for reading, feel free to reach out.", "2024-01-02", "", "post",
     "Posts.csv"⟩]

/-- C10, witness: re-running the builder on the same concrete corpus gives
the same profile components. -/
theorem c10_buildVoiceProfile_deterministic_witness :
    (buildVoiceProfile c10Corpus).lexicon = (buildVoiceProfile c10Corpus).lexicon ∧
    (buildVoiceProfile c10Corpus).cadence = (buildVoiceProfile c10Corpus).cadence ∧
    (buildVoiceProfile c10Corpus).toneSliders = (buildVoiceProfile c10Corpus).toneSliders ∧
    (buildVoiceProfile c10Corpus).signatureMoves = (buildVoiceProfile c10Corpus).signatureMoves :=
  c10_buildVoiceProfile_deterministic c10Corpus c10Corpus rfl
